import Mathlib

/-!
Shallow embedding of the inventory-reservation and order-lifecycle subsystem of
the e-commerce service (models/Product.js, models/Order.js, models/Payment.js,
models/Cart.js, routes/products.js order routes, admin status route).

Conventions of the embedding:
* MongoDB documents become Lean structures; the product collection is a total
  function from product id to the product record (the routes never delete
  products in the modelled operation set), orders are an association list keyed
  by a monotonically assigned id, payments are a list.
* `stock` and `reservedStock` are `Int` because the routes mutate them through
  raw `$inc` update operators, which Mongo applies without running the schema
  `min: 0` validators, so negative values are representable.
* Wall-clock time (`Date.now`) and the payment simulator's coin flip
  (`Math.random() > 0.1`) are explicit parameters (`now : Int`,
  `paymentSuccess : Bool`).
* `session.withTransaction` semantics: a route body that throws after writing
  has all its writes rolled back.  Each route body is modelled as a function
  returning the written state plus an optional error; the `...Tx` wrapper
  discards the writes when an error was thrown (transaction abort), while the
  `runWithTransaction` fallback path (no replica set, `callback(null)`) keeps
  the writes that happened before the throw.
-/

namespace Shop

/-- Order lifecycle states, from `orderSchema.status` enum in models/Order.js. -/
inductive OrderStatus where
  | PENDING_PAYMENT
  | PAID
  | SHIPPED
  | DELIVERED
  | CANCELLED
deriving DecidableEq, Repr

/-- Payment attempt states, from `paymentSchema.status` enum in models/Payment.js. -/
inductive PaymentStatus where
  | SUCCESS
  | FAILED
  | PENDING
deriving DecidableEq, Repr

/-- Product inventory record, from models/Product.js (fields used by the
order routes; prices are modelled as integers). -/
structure Product where
  name : String
  price : Int
  stock : Int
  reservedStock : Int
  isActive : Bool
deriving DecidableEq, Repr

/-- Virtual `availableStock` getter from models/Product.js. -/
def availableStock (p : Product) : Int :=
  p.stock - p.reservedStock

/-- Order line item, from `orderItemSchema` in models/Order.js. -/
structure OrderItem where
  productId : Nat
  quantity : Nat
  priceAtPurchase : Int
  productName : String
deriving DecidableEq, Repr

/-- Order document, from `orderSchema` in models/Order.js (fields the claims
touch; `expiresAt` is a millisecond timestamp). -/
structure Order where
  userId : Nat
  items : List OrderItem
  totalAmount : Int
  status : OrderStatus
  expiresAt : Int
deriving DecidableEq, Repr

/-- Payment attempt document, from `paymentSchema` in models/Payment.js. -/
structure Payment where
  orderId : Nat
  amount : Int
  status : PaymentStatus
  failureReason : Option String
deriving DecidableEq, Repr

/-- Cart line item, from `cartItemSchema` in models/Cart.js. -/
structure CartItem where
  productId : Nat
  quantity : Nat
deriving DecidableEq, Repr

/-- The persistent state touched by the modelled routes: the product
collection, the order collection (assoc list keyed by id, fresh ids taken from
`nextOrderId`), the payment collection, and each user's cart items. -/
structure DB where
  products : Nat → Product
  orders : List (Nat × Order)
  nextOrderId : Nat
  payments : List Payment
  carts : Nat → List CartItem

/-- `Order.findById`: first entry with the given key. -/
def findOrder (oid : Nat) : List (Nat × Order) → Option Order
  | [] => none
  | (k, o) :: rest => if k = oid then some o else findOrder oid rest

/-- `orderSchema.methods.isExpired` from models/Order.js:
`this.status === 'PENDING_PAYMENT' && new Date() > this.expiresAt`. -/
def isExpired (o : Order) (now : Int) : Prop :=
  o.status = .PENDING_PAYMENT ∧ o.expiresAt < now

instance (o : Order) (now : Int) : Decidable (isExpired o now) := by
  unfold isExpired; infer_instance

/-- Point update of one product document (`Product.findByIdAndUpdate`). -/
def updateProduct (db : DB) (pid : Nat) (f : Product → Product) : DB :=
  { db with products := fun i => if i = pid then f (db.products i) else db.products i }

/-- `order.save()` after mutating `order.status`: rewrites the document with
the given key with the new status. -/
def setOrderStatusL (l : List (Nat × Order)) (oid : Nat) (st : OrderStatus) :
    List (Nat × Order) :=
  l.map fun e => if e.1 = oid then (e.1, { e.2 with status := st }) else e

def setOrderStatus (db : DB) (oid : Nat) (st : OrderStatus) : DB :=
  { db with orders := setOrderStatusL db.orders oid st }

/-- `Payment` document insertion (`new Payment(...).save()`). -/
def addPayment (db : DB) (p : Payment) : DB :=
  { db with payments := p :: db.payments }

/-- Checkout's reserve loop (routes/products.js, `$inc reservedStock: +qty`
per cart item). -/
def reserveCartItems (db : DB) (items : List CartItem) : DB :=
  items.foldl
    (fun d it =>
      updateProduct d it.productId
        (fun p => { p with reservedStock := p.reservedStock + (it.quantity : Int) }))
    db

/-- The release loops in the lazy-expiry branch of pay and in the expiration
sweeper (`$inc reservedStock: -qty` per order item, no floor, no validators). -/
def releaseItems (db : DB) (items : List OrderItem) : DB :=
  items.foldl
    (fun d it =>
      updateProduct d it.productId
        (fun p => { p with reservedStock := p.reservedStock - (it.quantity : Int) }))
    db

/-- The commit loop in the success branch of pay
(`$inc stock: -qty, reservedStock: -qty` per order item). -/
def commitItems (db : DB) (items : List OrderItem) : DB :=
  items.foldl
    (fun d it =>
      updateProduct d it.productId
        (fun p =>
          { p with
            stock := p.stock - (it.quantity : Int)
            reservedStock := p.reservedStock - (it.quantity : Int) }))
    db

/-- Checkout errors thrown by the validation section of POST /api/orders/checkout. -/
inductive CheckoutError where
  | cartEmpty
  | productUnavailable (productName : String)
  | insufficientStock (productName : String) (available : Int)
deriving DecidableEq, Repr

/-- The checkout validation loop: walks the cart in order; throws on the first
inactive product or on the first line with `availableStock < quantity`;
otherwise builds the order items (freezing price and name) and accumulates
`totalAmount`. -/
def validateItems (db : DB) : List CartItem → Except CheckoutError (List OrderItem × Int)
  | [] => .ok ([], 0)
  | it :: rest =>
    if (db.products it.productId).isActive = false then
      .error (.productUnavailable (db.products it.productId).name)
    else if availableStock (db.products it.productId) < (it.quantity : Int) then
      .error (.insufficientStock (db.products it.productId).name
        (availableStock (db.products it.productId)))
    else
      match validateItems db rest with
      | .error e => .error e
      | .ok (os, t) =>
        .ok ({ productId := it.productId, quantity := it.quantity,
               priceAtPurchase := (db.products it.productId).price,
               productName := (db.products it.productId).name } :: os,
             t + (db.products it.productId).price * (it.quantity : Int))

/-- The writes of a successful checkout: insert the new order (fresh id,
PENDING_PAYMENT, `expiresAt = now + 15min` per the models/Order.js default),
run the reserve loop over the cart lines, clear the cart. -/
def checkoutApply (now : Int) (uid : Nat) (db : DB) (orderItems : List OrderItem)
    (total : Int) : DB :=
  let oid := db.nextOrderId
  let order : Order :=
    { userId := uid, items := orderItems, totalAmount := total,
      status := .PENDING_PAYMENT, expiresAt := now + 15 * 60 * 1000 }
  let db1 : DB :=
    { db with orders := (oid, order) :: db.orders, nextOrderId := oid + 1 }
  let db2 := reserveCartItems db1 (db.carts uid)
  { db2 with carts := fun u => if u = uid then [] else db2.carts u }

/-- POST /api/orders/checkout.  All throws happen before any write, so the
transactional and the fallback execution agree; on error the state is
returned unchanged. -/
def checkout (now : Int) (uid : Nat) (db : DB) : DB × Option CheckoutError :=
  let cart := db.carts uid
  if cart.isEmpty then
    (db, some .cartEmpty)
  else
    match validateItems db cart with
    | .error e => (db, some e)
    | .ok (orderItems, total) => (checkoutApply now uid db orderItems total, none)

/-- Errors thrown by POST /api/orders/:id/pay. -/
inductive PayError where
  | orderNotFound
  | unauthorized
  | orderExpired
  | wrongStatus (current : OrderStatus)
  | paymentDeclined
deriving DecidableEq, Repr

/-- The body of POST /api/orders/:id/pay, executed write-by-write: returns the
state as written so far together with the thrown error, if any.  Branch order
follows the route: not-found, ownership, lazy expiry (cancel + release + throw),
wrong status, simulator failure (record FAILED attempt + throw), success
(record SUCCESS attempt, set PAID, commit stock). -/
def payBody (now : Int) (paymentSuccess : Bool) (uid oid : Nat) (db : DB) :
    DB × Option PayError :=
  match findOrder oid db.orders with
  | none => (db, some .orderNotFound)
  | some o =>
    if o.userId ≠ uid then
      (db, some .unauthorized)
    else if o.status = .PENDING_PAYMENT ∧ isExpired o now then
      let db1 := setOrderStatus db oid .CANCELLED
      let db2 := releaseItems db1 o.items
      (db2, some .orderExpired)
    else if o.status ≠ .PENDING_PAYMENT then
      (db, some (.wrongStatus o.status))
    else if ¬ paymentSuccess then
      (addPayment db
        { orderId := oid, amount := o.totalAmount, status := .FAILED,
          failureReason := some "Payment gateway declined transaction" },
       some .paymentDeclined)
    else
      let db1 := addPayment db
        { orderId := oid, amount := o.totalAmount, status := .SUCCESS,
          failureReason := none }
      let db2 := setOrderStatus db1 oid .PAID
      let db3 := commitItems db2 o.items
      (db3, none)

/-- POST /api/orders/:id/pay under `session.withTransaction`: a thrown error
aborts the transaction, rolling back every write of the body. -/
def payTx (now : Int) (paymentSuccess : Bool) (uid oid : Nat) (db : DB) :
    DB × Option PayError :=
  match payBody now paymentSuccess uid oid db with
  | (_, some e) => (db, some e)
  | (db', none) => (db', none)

/-- POST /api/orders/:id/pay on the `runWithTransaction` fallback path
(no replica set: `callback(null)`): writes persist even when the body throws. -/
def payNoTx (now : Int) (paymentSuccess : Bool) (uid oid : Nat) (db : DB) :
    DB × Option PayError :=
  payBody now paymentSuccess uid oid db

/-- The `validTransitions` table of PATCH /api/admin/orders/:id/status. -/
def validTransition : OrderStatus → OrderStatus → Bool
  | .PENDING_PAYMENT, .PAID => true
  | .PENDING_PAYMENT, .CANCELLED => true
  | .PAID, .SHIPPED => true
  | .PAID, .CANCELLED => true
  | .SHIPPED, .DELIVERED => true
  | _, _ => false

/-- Errors returned by PATCH /api/admin/orders/:id/status. -/
inductive AdminStatusError where
  | orderNotFound
  | invalidTransition (current requested : OrderStatus)
deriving DecidableEq, Repr

/-- PATCH /api/admin/orders/:id/status: looks the order up, rejects a
transition absent from `validTransitions` (reporting current and requested
status), otherwise writes only `order.status`. -/
def adminUpdateStatus (oid : Nat) (requested : OrderStatus) (db : DB) :
    DB × Option AdminStatusError :=
  match findOrder oid db.orders with
  | none => (db, some .orderNotFound)
  | some o =>
    if validTransition o.status requested then
      (setOrderStatus db oid requested, none)
    else
      (db, some (.invalidTransition o.status requested))

/-- The sweeper's scan (`Order.find({status: PENDING_PAYMENT, expiresAt: {$lt: now}})`). -/
def sweepScan (now : Int) (db : DB) : List (Nat × Order) :=
  db.orders.filter fun e =>
    decide (e.2.status = .PENDING_PAYMENT ∧ e.2.expiresAt < now)

/-- One per-order step of the sweeper: writes CANCELLED into the document with
the scanned key (unconditionally — the route re-checks nothing) and releases
the scanned items. -/
def sweepProcess (oid : Nat) (o : Order) (db : DB) : DB :=
  releaseItems (setOrderStatus db oid .CANCELLED) o.items

/-- One full tick of the `setInterval` sweeper: scan, then process every
scanned order; each per-order transaction commits (nothing throws). -/
def sweepTick (now : Int) (db : DB) : DB :=
  (sweepScan now db).foldl (fun d e => sweepProcess e.1 e.2 d) db

/-- The operations of the subsystem, for reachability statements.  `pay`
carries the wall clock, the simulator outcome, whether the transactional or
the fallback path ran, the caller, and the order id. -/
inductive Op where
  | checkout (now : Int) (uid : Nat)
  | pay (now : Int) (paymentSuccess : Bool) (useTx : Bool) (uid oid : Nat)
  | sweep (now : Int)

def applyOp : Op → DB → DB
  | .checkout now uid, db => (checkout now uid db).1
  | .pay now ps useTx uid oid, db =>
    (if useTx then payTx now ps uid oid db else payNoTx now ps uid oid db).1
  | .sweep now, db => sweepTick now db

/-- States reachable by any sequence of checkout, pay and sweep operations. -/
inductive Reachable : DB → DB → Prop
  | refl (db : DB) : Reachable db db
  | step (db1 db2 : DB) (op : Op) : Reachable db1 db2 → Reachable db1 (applyOp op db2)

/-! ### Auxiliary quantities for the inventory invariant -/

/-- Total quantity a list of order items holds against product `pid`. -/
def itemsQty (items : List OrderItem) (pid : Nat) : Int :=
  (items.map fun it => if it.productId = pid then (it.quantity : Int) else 0).sum

/-- Total quantity a list of cart items holds against product `pid`. -/
def cartQty (items : List CartItem) (pid : Nat) : Int :=
  (items.map fun it => if it.productId = pid then (it.quantity : Int) else 0).sum

/-- The quantity an order holds reserved against `pid`: its item quantity while
the order is PENDING_PAYMENT, nothing otherwise. -/
def orderContrib (o : Order) (pid : Nat) : Int :=
  if o.status = .PENDING_PAYMENT then itemsQty o.items pid else 0

/-- Sum of pending reservations against `pid` over an order list. -/
def pendingL (l : List (Nat × Order)) (pid : Nat) : Int :=
  (l.map fun e => orderContrib e.2 pid).sum

/-- Sum of pending reservations against `pid` over the whole database. -/
def pendingReserved (db : DB) (pid : Nat) : Int :=
  pendingL db.orders pid

/-- Carts with at most one line per product.  The cart routes maintain this:
`cartSchema.methods.addItem` merges a new line into an existing line with the
same `productId` instead of pushing a duplicate. -/
def CartOK (items : List CartItem) : Prop :=
  items.Pairwise fun a b => a.productId ≠ b.productId

/-- The inductive system invariant: every product's pending reservations are
covered by `reservedStock`, which is covered by `stock`; order keys are
distinct and below the fresh-id counter; carts hold one line per product. -/
structure Inv (db : DB) : Prop where
  resLe : ∀ pid, pendingReserved db pid ≤ (db.products pid).reservedStock
  stockGe : ∀ pid, (db.products pid).reservedStock ≤ (db.products pid).stock
  keysNodup : (db.orders.map Prod.fst).Nodup
  keysLt : ∀ e ∈ db.orders, e.1 < db.nextOrderId
  cartsOk : ∀ uid, CartOK (db.carts uid)

/-- Initial states of the subsystem: no orders, no payments, every product
satisfying `0 ≤ reservedStock ≤ stock`, carts produced by the cart routes. -/
def InitOK (db : DB) : Prop :=
  db.orders = [] ∧ db.payments = [] ∧
  (∀ pid, 0 ≤ (db.products pid).reservedStock ∧
    (db.products pid).reservedStock ≤ (db.products pid).stock) ∧
  (∀ uid, CartOK (db.carts uid))

/-! ### Basic lemmas about the auxiliary quantities -/

theorem itemsQty_nonneg (items : List OrderItem) (pid : Nat) : 0 ≤ itemsQty items pid := by
  induction items with
  | nil => simp [itemsQty]
  | cons it rest ih =>
    simp only [itemsQty, List.map_cons, List.sum_cons] at *
    have h1 : (0 : Int) ≤ if it.productId = pid then (it.quantity : Int) else 0 := by
      split <;> simp
    omega

theorem cartQty_nonneg (items : List CartItem) (pid : Nat) : 0 ≤ cartQty items pid := by
  induction items with
  | nil => simp [cartQty]
  | cons it rest ih =>
    simp only [cartQty, List.map_cons, List.sum_cons] at *
    have h1 : (0 : Int) ≤ if it.productId = pid then (it.quantity : Int) else 0 := by
      split <;> simp
    omega

theorem orderContrib_nonneg (o : Order) (pid : Nat) : 0 ≤ orderContrib o pid := by
  unfold orderContrib
  split
  · exact itemsQty_nonneg o.items pid
  · exact le_refl 0

theorem pendingL_nonneg (l : List (Nat × Order)) (pid : Nat) : 0 ≤ pendingL l pid := by
  induction l with
  | nil => simp [pendingL]
  | cons e rest ih =>
    simp only [pendingL, List.map_cons, List.sum_cons] at *
    have := orderContrib_nonneg e.2 pid
    omega

theorem pendingL_cons (e : Nat × Order) (l : List (Nat × Order)) (pid : Nat) :
    pendingL (e :: l) pid = orderContrib e.2 pid + pendingL l pid := by
  simp [pendingL]

theorem pendingL_cons_mk (k : Nat) (o : Order) (l : List (Nat × Order)) (pid : Nat) :
    pendingL ((k, o) :: l) pid = orderContrib o pid + pendingL l pid := by
  simp [pendingL]

theorem itemsQty_cons (it : OrderItem) (rest : List OrderItem) (pid : Nat) :
    itemsQty (it :: rest) pid
      = (if it.productId = pid then (it.quantity : Int) else 0) + itemsQty rest pid := by
  simp [itemsQty]

theorem cartQty_cons (it : CartItem) (rest : List CartItem) (pid : Nat) :
    cartQty (it :: rest) pid
      = (if it.productId = pid then (it.quantity : Int) else 0) + cartQty rest pid := by
  simp [cartQty]

theorem cartQty_eq_zero_of_not_mem (items : List CartItem) (pid : Nat)
    (h : ∀ it ∈ items, it.productId ≠ pid) : cartQty items pid = 0 := by
  induction items with
  | nil => simp [cartQty]
  | cons it rest ih =>
    rw [cartQty_cons, if_neg (h it (List.mem_cons_self it rest)),
      ih fun x hx => h x (List.mem_cons_of_mem it hx)]
    omega


/-! ### Effect lemmas for the inventory loops -/

theorem releaseItems_products (items : List OrderItem) (db : DB) (pid : Nat) :
    ((releaseItems db items).products pid).reservedStock
      = (db.products pid).reservedStock - itemsQty items pid ∧
    ((releaseItems db items).products pid).stock = (db.products pid).stock := by
  induction items generalizing db with
  | nil => simp [releaseItems, itemsQty]
  | cons it rest ih =>
    have hstep : releaseItems db (it :: rest)
        = releaseItems (updateProduct db it.productId
            (fun p => { p with reservedStock := p.reservedStock - (it.quantity : Int) })) rest := by
      simp [releaseItems]
    rw [hstep, itemsQty_cons]
    obtain ⟨h1, h2⟩ := ih (updateProduct db it.productId
      (fun p => { p with reservedStock := p.reservedStock - (it.quantity : Int) }))
    rw [h1, h2]
    by_cases hpid : it.productId = pid
    · subst hpid
      simp [updateProduct]
      omega
    · have hne : (pid = it.productId) = False := eq_false fun hc => hpid hc.symm
      have hne2 : (it.productId = pid) = False := eq_false hpid
      simp [updateProduct, hne, hne2]

theorem releaseItems_frame (items : List OrderItem) (db : DB) :
    (releaseItems db items).orders = db.orders ∧
    (releaseItems db items).nextOrderId = db.nextOrderId ∧
    (releaseItems db items).payments = db.payments ∧
    (releaseItems db items).carts = db.carts := by
  induction items generalizing db with
  | nil => simp [releaseItems]
  | cons it rest ih =>
    have hstep : releaseItems db (it :: rest)
        = releaseItems (updateProduct db it.productId
            (fun p => { p with reservedStock := p.reservedStock - (it.quantity : Int) })) rest := by
      simp [releaseItems]
    rw [hstep]
    exact ih _

theorem commitItems_products (items : List OrderItem) (db : DB) (pid : Nat) :
    ((commitItems db items).products pid).reservedStock
      = (db.products pid).reservedStock - itemsQty items pid ∧
    ((commitItems db items).products pid).stock
      = (db.products pid).stock - itemsQty items pid := by
  induction items generalizing db with
  | nil => simp [commitItems, itemsQty]
  | cons it rest ih =>
    have hstep : commitItems db (it :: rest)
        = commitItems (updateProduct db it.productId
            (fun p => { p with stock := p.stock - (it.quantity : Int),
                               reservedStock := p.reservedStock - (it.quantity : Int) })) rest := by
      simp [commitItems]
    rw [hstep, itemsQty_cons]
    obtain ⟨h1, h2⟩ := ih (updateProduct db it.productId
      (fun p => { p with stock := p.stock - (it.quantity : Int),
                         reservedStock := p.reservedStock - (it.quantity : Int) }))
    rw [h1, h2]
    by_cases hpid : it.productId = pid
    · subst hpid
      simp [updateProduct]
      constructor <;> omega
    · have hne : (pid = it.productId) = False := eq_false fun hc => hpid hc.symm
      have hne2 : (it.productId = pid) = False := eq_false hpid
      simp [updateProduct, hne, hne2]

theorem commitItems_frame (items : List OrderItem) (db : DB) :
    (commitItems db items).orders = db.orders ∧
    (commitItems db items).nextOrderId = db.nextOrderId ∧
    (commitItems db items).payments = db.payments ∧
    (commitItems db items).carts = db.carts := by
  induction items generalizing db with
  | nil => simp [commitItems]
  | cons it rest ih =>
    have hstep : commitItems db (it :: rest)
        = commitItems (updateProduct db it.productId
            (fun p => { p with stock := p.stock - (it.quantity : Int),
                               reservedStock := p.reservedStock - (it.quantity : Int) })) rest := by
      simp [commitItems]
    rw [hstep]
    exact ih _

theorem reserveCartItems_products (items : List CartItem) (db : DB) (pid : Nat) :
    ((reserveCartItems db items).products pid).reservedStock
      = (db.products pid).reservedStock + cartQty items pid ∧
    ((reserveCartItems db items).products pid).stock = (db.products pid).stock := by
  induction items generalizing db with
  | nil => simp [reserveCartItems, cartQty]
  | cons it rest ih =>
    have hstep : reserveCartItems db (it :: rest)
        = reserveCartItems (updateProduct db it.productId
            (fun p => { p with reservedStock := p.reservedStock + (it.quantity : Int) })) rest := by
      simp [reserveCartItems]
    rw [hstep, cartQty_cons]
    obtain ⟨h1, h2⟩ := ih (updateProduct db it.productId
      (fun p => { p with reservedStock := p.reservedStock + (it.quantity : Int) }))
    rw [h1, h2]
    by_cases hpid : it.productId = pid
    · subst hpid
      simp [updateProduct]
      omega
    · have hne : (pid = it.productId) = False := eq_false fun hc => hpid hc.symm
      have hne2 : (it.productId = pid) = False := eq_false hpid
      simp [updateProduct, hne, hne2]

theorem reserveCartItems_frame (items : List CartItem) (db : DB) :
    (reserveCartItems db items).orders = db.orders ∧
    (reserveCartItems db items).nextOrderId = db.nextOrderId ∧
    (reserveCartItems db items).payments = db.payments ∧
    (reserveCartItems db items).carts = db.carts := by
  induction items generalizing db with
  | nil => simp [reserveCartItems]
  | cons it rest ih =>
    have hstep : reserveCartItems db (it :: rest)
        = reserveCartItems (updateProduct db it.productId
            (fun p => { p with reservedStock := p.reservedStock + (it.quantity : Int) })) rest := by
      simp [reserveCartItems]
    rw [hstep]
    exact ih _

/-! ### Lemmas about order lookup and status writes -/

theorem setOrderStatusL_cons (k : Nat) (o : Order) (rest : List (Nat × Order))
    (oid : Nat) (st : OrderStatus) :
    setOrderStatusL ((k, o) :: rest) oid st
      = (if k = oid then (k, { o with status := st }) else (k, o))
          :: setOrderStatusL rest oid st := rfl

theorem findOrder_cons (q k : Nat) (o : Order) (rest : List (Nat × Order)) :
    findOrder q ((k, o) :: rest) = if k = q then some o else findOrder q rest := rfl

theorem setOrderStatusL_keys (l : List (Nat × Order)) (oid : Nat) (st : OrderStatus) :
    (setOrderStatusL l oid st).map Prod.fst = l.map Prod.fst := by
  induction l with
  | nil => rfl
  | cons e rest ih =>
    obtain ⟨k, o⟩ := e
    rw [setOrderStatusL_cons]
    by_cases h : k = oid
    · simp [h, ih]
    · simp [h, ih]

theorem setOrderStatusL_of_not_mem (l : List (Nat × Order)) (oid : Nat) (st : OrderStatus)
    (h : oid ∉ l.map Prod.fst) : setOrderStatusL l oid st = l := by
  induction l with
  | nil => rfl
  | cons e rest ih =>
    obtain ⟨k, o⟩ := e
    simp only [List.map_cons, List.mem_cons] at h
    push_neg at h
    rw [setOrderStatusL_cons, if_neg fun hc => h.1 hc.symm, ih h.2]

theorem findOrder_setStatusL_self (l : List (Nat × Order)) (oid : Nat) (st : OrderStatus) :
    findOrder oid (setOrderStatusL l oid st)
      = (findOrder oid l).map fun o => { o with status := st } := by
  induction l with
  | nil => rfl
  | cons e rest ih =>
    obtain ⟨k, o⟩ := e
    rw [setOrderStatusL_cons]
    by_cases h : k = oid
    · subst h
      rw [if_pos rfl, findOrder_cons, if_pos rfl, findOrder_cons, if_pos rfl]
      rfl
    · rw [if_neg h, findOrder_cons, if_neg h, findOrder_cons, if_neg h, ih]

theorem findOrder_setStatusL_ne (l : List (Nat × Order)) (q oid : Nat) (st : OrderStatus)
    (h : q ≠ oid) : findOrder q (setOrderStatusL l oid st) = findOrder q l := by
  induction l with
  | nil => rfl
  | cons e rest ih =>
    obtain ⟨k, o⟩ := e
    rw [setOrderStatusL_cons]
    by_cases hk : k = oid
    · subst hk
      rw [if_pos rfl, findOrder_cons, findOrder_cons,
        if_neg fun hc => h hc.symm, if_neg fun hc => h hc.symm, ih]
    · rw [if_neg hk, findOrder_cons, findOrder_cons]
      by_cases hq : k = q
      · rw [if_pos hq, if_pos hq]
      · rw [if_neg hq, if_neg hq, ih]

theorem findOrder_eq_of_mem (l : List (Nat × Order)) (k : Nat) (o : Order)
    (hnd : (l.map Prod.fst).Nodup) (hm : (k, o) ∈ l) : findOrder k l = some o := by
  induction l with
  | nil => cases hm
  | cons e rest ih =>
    obtain ⟨k', o'⟩ := e
    simp only [List.map_cons, List.nodup_cons] at hnd
    rcases List.mem_cons.mp hm with h | h
    · injection h with h1 h2
      subst h1
      subst h2
      rw [findOrder_cons, if_pos rfl]
    · have hk : k' ≠ k := fun hc => hnd.1 (by
        rw [hc]
        exact List.mem_map.mpr ⟨(k, o), h, rfl⟩)
      rw [findOrder_cons, if_neg hk]
      exact ih hnd.2 h

theorem findOrder_mem (l : List (Nat × Order)) (k : Nat) (o : Order)
    (h : findOrder k l = some o) : (k, o) ∈ l := by
  induction l with
  | nil => cases h
  | cons e rest ih =>
    obtain ⟨k', o'⟩ := e
    rw [findOrder_cons] at h
    by_cases hk : k' = k
    · rw [if_pos hk] at h
      injection h with h2
      subst hk
      subst h2
      exact List.mem_cons_self _ _
    · rw [if_neg hk] at h
      exact List.mem_cons_of_mem _ (ih h)

theorem pendingL_setStatusL (l : List (Nat × Order)) (oid : Nat) (o : Order)
    (st : OrderStatus) (pid : Nat)
    (hnd : (l.map Prod.fst).Nodup) (hf : findOrder oid l = some o)
    (hp : o.status = .PENDING_PAYMENT) (hst : st ≠ .PENDING_PAYMENT) :
    pendingL (setOrderStatusL l oid st) pid = pendingL l pid - itemsQty o.items pid := by
  induction l with
  | nil => cases hf
  | cons e rest ih =>
    obtain ⟨k, o'⟩ := e
    simp only [List.map_cons, List.nodup_cons] at hnd
    rw [setOrderStatusL_cons]
    by_cases hk : k = oid
    · subst hk
      rw [findOrder_cons, if_pos rfl] at hf
      injection hf with hf
      subst hf
      rw [if_pos rfl, setOrderStatusL_of_not_mem rest k st hnd.1,
        pendingL_cons_mk, pendingL_cons_mk]
      have hc1 : orderContrib { o' with status := st } pid = 0 := by
        simp [orderContrib, hst]
      have hc2 : orderContrib o' pid = itemsQty o'.items pid := by
        simp only [orderContrib, if_pos hp]
      rw [hc1, hc2]
      omega
    · rw [findOrder_cons, if_neg hk] at hf
      rw [if_neg hk, pendingL_cons_mk, pendingL_cons_mk, ih hnd.2 hf]
      omega

theorem orderContrib_le_pendingL (l : List (Nat × Order)) (oid : Nat) (o : Order)
    (pid : Nat) (hf : findOrder oid l = some o) :
    orderContrib o pid ≤ pendingL l pid := by
  induction l with
  | nil => cases hf
  | cons e rest ih =>
    obtain ⟨k, o'⟩ := e
    rw [findOrder_cons] at hf
    by_cases hk : k = oid
    · rw [if_pos hk] at hf
      injection hf with hf
      subst hf
      rw [pendingL_cons_mk]
      have := pendingL_nonneg rest pid
      omega
    · rw [if_neg hk] at hf
      rw [pendingL_cons_mk]
      have h1 := ih hf
      have h2 := orderContrib_nonneg o' pid
      omega

/-! ### Lemmas about checkout validation -/

/-- The order item checkout builds from a cart line (price and name frozen
from the current product record). -/
def mkOrderItem (db : DB) (it : CartItem) : OrderItem :=
  { productId := it.productId, quantity := it.quantity,
    priceAtPurchase := (db.products it.productId).price,
    productName := (db.products it.productId).name }

/-- The `totalAmount` accumulated by the checkout validation loop. -/
def cartTotal (db : DB) : List CartItem → Int
  | [] => 0
  | it :: rest => cartTotal db rest + (db.products it.productId).price * (it.quantity : Int)

theorem validateItems_ok_mem (db : DB) (cart : List CartItem) (os : List OrderItem)
    (t : Int) (h : validateItems db cart = .ok (os, t)) :
    ∀ it ∈ cart, (db.products it.productId).isActive = true ∧
      (it.quantity : Int) ≤ availableStock (db.products it.productId) := by
  induction cart generalizing os t with
  | nil => intro it hit; cases hit
  | cons it rest ih =>
    intro x hx
    unfold validateItems at h
    by_cases hact : (db.products it.productId).isActive = false
    · rw [if_pos hact] at h
      exact absurd h (by simp)
    · rw [if_neg hact] at h
      by_cases hav : availableStock (db.products it.productId) < (it.quantity : Int)
      · rw [if_pos hav] at h
        exact absurd h (by simp)
      · rw [if_neg hav] at h
        rcases List.mem_cons.mp hx with hx | hx
        · subst hx
          refine ⟨by simpa using hact, by omega⟩
        · cases hrest : validateItems db rest with
          | error e =>
            rw [hrest] at h
            exact absurd h (by simp)
          | ok p =>
            obtain ⟨os', t'⟩ := p
            rw [hrest] at h
            exact ih os' t' hrest x hx

theorem validateItems_ok_qty (db : DB) (cart : List CartItem) (os : List OrderItem)
    (t : Int) (h : validateItems db cart = .ok (os, t)) (pid : Nat) :
    itemsQty os pid = cartQty cart pid := by
  induction cart generalizing os t with
  | nil =>
    unfold validateItems at h
    simp only [Except.ok.injEq, Prod.mk.injEq] at h
    obtain ⟨h1, _⟩ := h
    subst h1
    simp [itemsQty, cartQty]
  | cons it rest ih =>
    unfold validateItems at h
    by_cases hact : (db.products it.productId).isActive = false
    · rw [if_pos hact] at h
      exact absurd h (by simp)
    · rw [if_neg hact] at h
      by_cases hav : availableStock (db.products it.productId) < (it.quantity : Int)
      · rw [if_pos hav] at h
        exact absurd h (by simp)
      · rw [if_neg hav] at h
        cases hrest : validateItems db rest with
        | error e =>
          rw [hrest] at h
          exact absurd h (by simp)
        | ok p =>
          obtain ⟨os', t'⟩ := p
          rw [hrest] at h
          simp only [Except.ok.injEq, Prod.mk.injEq] at h
          obtain ⟨h1, _⟩ := h
          subst h1
          rw [itemsQty_cons, cartQty_cons, ih os' t' hrest]

theorem validateItems_eq_ok (db : DB) (cart : List CartItem)
    (h : ∀ it ∈ cart, (db.products it.productId).isActive = true ∧
      (it.quantity : Int) ≤ availableStock (db.products it.productId)) :
    validateItems db cart = .ok (cart.map (mkOrderItem db), cartTotal db cart) := by
  induction cart with
  | nil => rfl
  | cons it rest ih =>
    obtain ⟨hact, havail⟩ := h it (List.mem_cons_self _ _)
    unfold validateItems
    rw [if_neg (by simp [hact]), if_neg (by omega),
      ih fun x hx => h x (List.mem_cons_of_mem _ hx)]
    rfl

theorem cartQty_le_available (db : DB) (cart : List CartItem)
    (hok : CartOK cart)
    (hcond : ∀ it ∈ cart, (it.quantity : Int) ≤ availableStock (db.products it.productId))
    (hsg : ∀ pid, 0 ≤ availableStock (db.products pid)) (pid : Nat) :
    cartQty cart pid ≤ availableStock (db.products pid) := by
  induction cart with
  | nil => simpa [cartQty] using hsg pid
  | cons it rest ih =>
    obtain ⟨hhead, htail⟩ := List.pairwise_cons.mp hok
    rw [cartQty_cons]
    by_cases hpid : it.productId = pid
    · subst hpid
      rw [if_pos rfl,
        cartQty_eq_zero_of_not_mem rest it.productId fun x hx => (hhead x hx).symm]
      have := hcond it (List.mem_cons_self _ _)
      omega
    · rw [if_neg hpid]
      have := ih htail fun x hx => hcond x (List.mem_cons_of_mem _ hx)
      omega

/-! ### Invariant preservation -/

theorem keysLt_of_keys_eq (l l' : List (Nat × Order)) (n : Nat)
    (hk : l'.map Prod.fst = l.map Prod.fst) (h : ∀ e ∈ l, e.1 < n) :
    ∀ e ∈ l', e.1 < n := by
  intro e he
  have : e.1 ∈ l'.map Prod.fst := List.mem_map.mpr ⟨e, he, rfl⟩
  rw [hk] at this
  obtain ⟨x, hx, hx1⟩ := List.mem_map.mp this
  rw [← hx1]
  exact h x hx

theorem Inv_congr (db db' : DB)
    (hp : ∀ pid, db'.products pid = db.products pid)
    (ho : db'.orders = db.orders) (hn : db'.nextOrderId = db.nextOrderId)
    (hc : ∀ uid, db'.carts uid = db.carts uid) (h : Inv db) : Inv db' := by
  constructor
  · intro pid
    rw [hp]
    unfold pendingReserved
    rw [ho]
    exact h.resLe pid
  · intro pid
    rw [hp]
    exact h.stockGe pid
  · rw [ho]
    exact h.keysNodup
  · rw [ho, hn]
    exact h.keysLt
  · intro uid
    rw [hc]
    exact h.cartsOk uid

/-- The cancel-and-release step shared by the lazy-expiry branch of pay and
the expiration sweeper preserves the invariant, provided the order it acts on
is currently PENDING_PAYMENT in the database. -/
theorem cancelRelease_preserves_Inv (db : DB) (oid : Nat) (o : Order)
    (h : Inv db) (hf : findOrder oid db.orders = some o)
    (hp : o.status = .PENDING_PAYMENT) :
    Inv (releaseItems (setOrderStatus db oid .CANCELLED) o.items) := by
  set db1 := setOrderStatus db oid .CANCELLED with hdb1
  set db2 := releaseItems db1 o.items with hdb2
  obtain ⟨hfo, hfn, _, hfc⟩ := releaseItems_frame o.items db1
  have hord : db2.orders = setOrderStatusL db.orders oid .CANCELLED := hfo
  have hpend : ∀ pid, pendingReserved db2 pid
      = pendingReserved db pid - itemsQty o.items pid := by
    intro pid
    unfold pendingReserved
    rw [hord]
    exact pendingL_setStatusL db.orders oid o .CANCELLED pid h.keysNodup hf hp (by simp)
  have hprod : ∀ pid,
      (db2.products pid).reservedStock
        = (db.products pid).reservedStock - itemsQty o.items pid ∧
      (db2.products pid).stock = (db.products pid).stock := by
    intro pid
    have := releaseItems_products o.items db1 pid
    simpa [hdb1, setOrderStatus] using this
  constructor
  · intro pid
    rw [hpend, (hprod pid).1]
    have := h.resLe pid
    omega
  · intro pid
    rw [(hprod pid).1, (hprod pid).2]
    have h1 := h.stockGe pid
    have h2 := itemsQty_nonneg o.items pid
    omega
  · rw [hord, setOrderStatusL_keys]
    exact h.keysNodup
  · rw [hord, hfn]
    have : db1.nextOrderId = db.nextOrderId := rfl
    rw [this]
    exact keysLt_of_keys_eq db.orders _ db.nextOrderId
      (setOrderStatusL_keys db.orders oid .CANCELLED) h.keysLt
  · intro uid
    rw [hfc]
    exact h.cartsOk uid

/-- What the success state of checkout looks like, field by field. -/
theorem checkoutApply_state (now : Int) (uid : Nat) (db : DB)
    (os : List OrderItem) (t : Int) :
    (checkoutApply now uid db os t).orders
      = (db.nextOrderId,
          { userId := uid, items := os, totalAmount := t,
            status := .PENDING_PAYMENT,
            expiresAt := now + 15 * 60 * 1000 : Order }) :: db.orders ∧
    (checkoutApply now uid db os t).nextOrderId = db.nextOrderId + 1 ∧
    (∀ pid, ((checkoutApply now uid db os t).products pid).reservedStock
        = (db.products pid).reservedStock + cartQty (db.carts uid) pid ∧
      ((checkoutApply now uid db os t).products pid).stock = (db.products pid).stock) ∧
    (checkoutApply now uid db os t).carts uid = [] ∧
    (∀ u, u ≠ uid → (checkoutApply now uid db os t).carts u = db.carts u) ∧
    (checkoutApply now uid db os t).payments = db.payments := by
  unfold checkoutApply
  obtain ⟨ho, hn, hpay, hca⟩ := reserveCartItems_frame (db.carts uid)
    { db with
      orders := (db.nextOrderId,
        { userId := uid, items := os, totalAmount := t,
          status := .PENDING_PAYMENT,
          expiresAt := now + 15 * 60 * 1000 : Order }) :: db.orders,
      nextOrderId := db.nextOrderId + 1 }
  refine ⟨ho, hn, fun pid => ?_, by simp, fun u hu => ?_, hpay⟩
  · exact reserveCartItems_products (db.carts uid) _ pid
  · simp only [if_neg hu]
    rw [hca]

theorem checkout_preserves_Inv (now : Int) (uid : Nat) (db : DB) (h : Inv db) :
    Inv (checkout now uid db).1 := by
  unfold checkout
  by_cases hemp : (db.carts uid).isEmpty = true
  · rw [if_pos hemp]
    exact h
  · rw [if_neg hemp]
    cases hval : validateItems db (db.carts uid) with
    | error e => exact h
    | ok p =>
      obtain ⟨os, t⟩ := p
      show Inv (checkoutApply now uid db os t)
      obtain ⟨ho, hn, hprod, hcu, hco, hpay⟩ := checkoutApply_state now uid db os t
      have hqty : ∀ pid, itemsQty os pid = cartQty (db.carts uid) pid :=
        validateItems_ok_qty db (db.carts uid) os t hval
      have hcond := validateItems_ok_mem db (db.carts uid) os t hval
      have havail : ∀ pid, cartQty (db.carts uid) pid
          ≤ availableStock (db.products pid) := by
        intro pid
        refine cartQty_le_available db (db.carts uid) (h.cartsOk uid)
          (fun it hit => (hcond it hit).2) (fun q => ?_) pid
        have := h.stockGe q
        unfold availableStock
        omega
      constructor
      · intro pid
        unfold pendingReserved
        rw [ho, pendingL_cons_mk, (hprod pid).1]
        have hc : orderContrib
            { userId := uid, items := os, totalAmount := t,
              status := .PENDING_PAYMENT,
              expiresAt := now + 15 * 60 * 1000 : Order } pid
            = itemsQty os pid := by
          simp [orderContrib]
        rw [hc, hqty pid]
        have := h.resLe pid
        unfold pendingReserved at this
        omega
      · intro pid
        rw [(hprod pid).1, (hprod pid).2]
        have h1 := havail pid
        unfold availableStock at h1
        omega
      · rw [ho]
        simp only [List.map_cons, List.nodup_cons]
        refine ⟨fun hc => ?_, h.keysNodup⟩
        obtain ⟨e, he, he1⟩ := List.mem_map.mp hc
        exact absurd (he1 ▸ h.keysLt e he) (by omega)
      · rw [ho, hn]
        intro e he
        rcases List.mem_cons.mp he with he | he
        · rw [he]
          omega
        · have := h.keysLt e he
          omega
      · intro u
        by_cases hu : u = uid
        · rw [hu, hcu]
          exact List.Pairwise.nil
        · rw [hco u hu]
          exact h.cartsOk u

/-- The commit step of a successful payment preserves the invariant. -/
theorem commitPaid_preserves_Inv (db : DB) (oid : Nat) (o : Order) (pay : Payment)
    (h : Inv db) (hf : findOrder oid db.orders = some o)
    (hp : o.status = .PENDING_PAYMENT) :
    Inv (commitItems (setOrderStatus (addPayment db pay) oid .PAID) o.items) := by
  set db1 := setOrderStatus (addPayment db pay) oid .PAID with hdb1
  obtain ⟨hfo, hfn, _, hfc⟩ := commitItems_frame o.items db1
  have hord : (commitItems db1 o.items).orders
      = setOrderStatusL db.orders oid .PAID := hfo
  have hpend : ∀ pid, pendingReserved (commitItems db1 o.items) pid
      = pendingReserved db pid - itemsQty o.items pid := by
    intro pid
    unfold pendingReserved
    rw [hord]
    exact pendingL_setStatusL db.orders oid o .PAID pid h.keysNodup hf hp (by simp)
  have hprod : ∀ pid,
      ((commitItems db1 o.items).products pid).reservedStock
        = (db.products pid).reservedStock - itemsQty o.items pid ∧
      ((commitItems db1 o.items).products pid).stock
        = (db.products pid).stock - itemsQty o.items pid := by
    intro pid
    exact commitItems_products o.items db1 pid
  constructor
  · intro pid
    rw [hpend, (hprod pid).1]
    have := h.resLe pid
    omega
  · intro pid
    rw [(hprod pid).1, (hprod pid).2]
    have := h.stockGe pid
    omega
  · rw [hord, setOrderStatusL_keys]
    exact h.keysNodup
  · rw [hord, hfn]
    exact keysLt_of_keys_eq db.orders _ db.nextOrderId
      (setOrderStatusL_keys db.orders oid .PAID) h.keysLt
  · intro uid
    rw [hfc]
    exact h.cartsOk uid

theorem payBody_preserves_Inv (now : Int) (ps : Bool) (uid oid : Nat) (db : DB)
    (h : Inv db) : Inv (payBody now ps uid oid db).1 := by
  unfold payBody
  split
  · exact h
  next o hf =>
    by_cases hu : o.userId ≠ uid
    · rw [if_pos hu]
      exact h
    · rw [if_neg hu]
      by_cases hexp : o.status = OrderStatus.PENDING_PAYMENT ∧ isExpired o now
      · rw [if_pos hexp]
        exact cancelRelease_preserves_Inv db oid o h hf hexp.1
      · rw [if_neg hexp]
        by_cases hst : o.status ≠ OrderStatus.PENDING_PAYMENT
        · rw [if_pos hst]
          exact h
        · rw [if_neg hst]
          push_neg at hst
          by_cases hps : ¬ ps = true
          · rw [if_pos hps]
            exact Inv_congr db _ (fun _ => rfl) rfl rfl (fun _ => rfl) h
          · rw [if_neg hps]
            exact commitPaid_preserves_Inv db oid o _ h hf hst

theorem payTx_preserves_Inv (now : Int) (ps : Bool) (uid oid : Nat) (db : DB)
    (h : Inv db) : Inv (payTx now ps uid oid db).1 := by
  unfold payTx
  cases hb : payBody now ps uid oid db with
  | mk db' e =>
    cases e with
    | none =>
      have := payBody_preserves_Inv now ps uid oid db h
      rw [hb] at this
      exact this
    | some err => exact h

theorem sweepFold_preserves_Inv (l : List (Nat × Order)) (d : DB) (hInv : Inv d)
    (hl : ∀ e ∈ l, findOrder e.1 d.orders = some e.2 ∧ e.2.status = .PENDING_PAYMENT)
    (hnd : (l.map Prod.fst).Nodup) :
    Inv (l.foldl (fun d e => sweepProcess e.1 e.2 d) d) := by
  induction l generalizing d with
  | nil => exact hInv
  | cons e rest ih =>
    simp only [List.foldl_cons]
    simp only [List.map_cons, List.nodup_cons] at hnd
    have hhead := hl e (List.mem_cons_self _ _)
    apply ih
    · exact cancelRelease_preserves_Inv d e.1 e.2 hInv hhead.1 hhead.2
    · intro e' he'
      have horders : (sweepProcess e.1 e.2 d).orders
          = setOrderStatusL d.orders e.1 .CANCELLED :=
        (releaseItems_frame e.2.items (setOrderStatus d e.1 .CANCELLED)).1
      have hne : e'.1 ≠ e.1 := by
        intro hc
        exact hnd.1 (hc ▸ List.mem_map.mpr ⟨e', he', rfl⟩)
      rw [horders, findOrder_setStatusL_ne d.orders e'.1 e.1 .CANCELLED hne]
      exact hl e' (List.mem_cons_of_mem _ he')
    · exact hnd.2

theorem sweepTick_preserves_Inv (now : Int) (db : DB) (h : Inv db) :
    Inv (sweepTick now db) := by
  unfold sweepTick
  apply sweepFold_preserves_Inv _ _ h
  · intro e he
    unfold sweepScan at he
    have hmem : e ∈ db.orders := List.mem_of_mem_filter he
    have hcond := List.of_mem_filter he
    simp only [decide_eq_true_eq] at hcond
    exact ⟨findOrder_eq_of_mem db.orders e.1 e.2 h.keysNodup hmem, hcond.1⟩
  · unfold sweepScan
    exact h.keysNodup.sublist ((List.filter_sublist db.orders).map Prod.fst)

theorem applyOp_preserves_Inv (op : Op) (db : DB) (h : Inv db) :
    Inv (applyOp op db) := by
  cases op with
  | checkout now uid => exact checkout_preserves_Inv now uid db h
  | pay now ps useTx uid oid =>
    cases useTx with
    | false =>
      show Inv ((if false = true then payTx now ps uid oid db
        else payNoTx now ps uid oid db).1)
      rw [if_neg (by simp)]
      exact payBody_preserves_Inv now ps uid oid db h
    | true =>
      show Inv ((if true = true then payTx now ps uid oid db
        else payNoTx now ps uid oid db).1)
      rw [if_pos rfl]
      exact payTx_preserves_Inv now ps uid oid db h
  | sweep now => exact sweepTick_preserves_Inv now db h

theorem reachable_Inv (db0 db : DB) (h0 : Inv db0) (h : Reachable db0 db) : Inv db := by
  induction h with
  | refl => exact h0
  | step db2 op _ ih => exact applyOp_preserves_Inv op db2 ih

theorem InitOK_Inv (db : DB) (h : InitOK db) : Inv db := by
  obtain ⟨ho, _, hps, hc⟩ := h
  constructor
  · intro pid
    unfold pendingReserved
    rw [ho]
    have := (hps pid).1
    simpa [pendingL] using this
  · intro pid
    exact (hps pid).2
  · rw [ho]
    exact List.nodup_nil
  · intro e he
    rw [ho] at he
    cases he
  · exact hc

/-- Reduction of the pay body once the order lookup has resolved. -/
theorem payBody_some (now : Int) (ps : Bool) (uid oid : Nat) (db : DB) (o : Order)
    (hf : findOrder oid db.orders = some o) :
    payBody now ps uid oid db
      = if o.userId ≠ uid then (db, some .unauthorized)
        else if o.status = .PENDING_PAYMENT ∧ isExpired o now then
          (releaseItems (setOrderStatus db oid .CANCELLED) o.items, some .orderExpired)
        else if o.status ≠ .PENDING_PAYMENT then (db, some (.wrongStatus o.status))
        else if ¬ ps = true then
          (addPayment db
            { orderId := oid, amount := o.totalAmount, status := .FAILED,
              failureReason := some "Payment gateway declined transaction" },
           some .paymentDeclined)
        else
          (commitItems (setOrderStatus (addPayment db
            { orderId := oid, amount := o.totalAmount, status := .SUCCESS,
              failureReason := none }) oid .PAID) o.items, none) := by
  unfold payBody
  rw [hf]

/-! ### Example states used by the concrete witnesses and evidence theorems -/

def exProduct : Product :=
  { name := "Widget", price := 10, stock := 5, reservedStock := 0, isActive := true }

def exDB0 : DB :=
  { products := fun _ => exProduct, orders := [], nextOrderId := 0, payments := [],
    carts := fun _ => [{ productId := 0, quantity := 2 }] }

/-! ### Claim theorems -/

/-- C1: for every product and every state reachable from an initial state
(no orders yet, every product with `0 ≤ reservedStock ≤ stock`, carts as the
cart routes build them: one line per product) by any sequence of checkout,
pay (either transaction mode, any simulator outcome) and expiration-sweep
operations, the inventory invariant `0 ≤ reservedStock ≤ stock` holds, and
`availableStock = stock - reservedStock ≥ 0`. -/
theorem C1_inventory_invariant (db0 db : DB) (h0 : InitOK db0)
    (h : Reachable db0 db) :
    ∀ pid, 0 ≤ (db.products pid).reservedStock ∧
      (db.products pid).reservedStock ≤ (db.products pid).stock ∧
      availableStock (db.products pid)
        = (db.products pid).stock - (db.products pid).reservedStock ∧
      0 ≤ availableStock (db.products pid) := by
  have hinv := reachable_Inv db0 db (InitOK_Inv db0 h0) h
  intro pid
  have h1 := hinv.resLe pid
  have h2 := hinv.stockGe pid
  have h3 := pendingL_nonneg db.orders pid
  unfold pendingReserved at h1
  unfold availableStock
  omega

/-- C1 witness: the invariant holds concretely after one checkout step from a
concrete initial state. -/
theorem C1_inventory_invariant_witness :
    InitOK exDB0 ∧
    (0 ≤ ((applyOp (.checkout 0 0) exDB0).products 0).reservedStock ∧
      ((applyOp (.checkout 0 0) exDB0).products 0).reservedStock
        ≤ ((applyOp (.checkout 0 0) exDB0).products 0).stock ∧
      availableStock ((applyOp (.checkout 0 0) exDB0).products 0)
        = ((applyOp (.checkout 0 0) exDB0).products 0).stock
          - ((applyOp (.checkout 0 0) exDB0).products 0).reservedStock ∧
      0 ≤ availableStock ((applyOp (.checkout 0 0) exDB0).products 0)) := by
  have hinit : InitOK exDB0 := by
    refine ⟨rfl, rfl, fun pid => ⟨?_, ?_⟩, fun uid => ?_⟩
    · show (0 : Int) ≤ 0
      decide
    · show (0 : Int) ≤ 5
      decide
    · simp [CartOK, exDB0]
  exact ⟨hinit, C1_inventory_invariant exDB0 _ hinit
    (Reachable.step _ _ _ (Reachable.refl _)) 0⟩

/-- C2: for every non-empty cart whose every line references an active product
with `availableStock ≥ quantity`, checkout succeeds and creates exactly one
order: PENDING_PAYMENT, `expiresAt = now + 15min`, items freezing the current
price and name, `totalAmount` summed from current prices; it increments each
product's `reservedStock` by the cart quantity for that product while leaving
`stock` unchanged, and clears the cart. -/
theorem C2_checkout_success (now : Int) (uid : Nat) (db : DB)
    (hne : db.carts uid ≠ [])
    (hcond : ∀ it ∈ db.carts uid, (db.products it.productId).isActive = true ∧
      (it.quantity : Int) ≤ availableStock (db.products it.productId)) :
    ∃ db' : DB, checkout now uid db = (db', none) ∧
      db'.orders = (db.nextOrderId,
        { userId := uid,
          items := (db.carts uid).map (mkOrderItem db),
          totalAmount := cartTotal db (db.carts uid),
          status := .PENDING_PAYMENT,
          expiresAt := now + 15 * 60 * 1000 : Order }) :: db.orders ∧
      (∀ pid, (db'.products pid).reservedStock
          = (db.products pid).reservedStock + cartQty (db.carts uid) pid ∧
        (db'.products pid).stock = (db.products pid).stock) ∧
      db'.carts uid = [] ∧
      db'.payments = db.payments := by
  have hval := validateItems_eq_ok db (db.carts uid) hcond
  refine ⟨checkoutApply now uid db ((db.carts uid).map (mkOrderItem db))
    (cartTotal db (db.carts uid)), ?_, ?_⟩
  · unfold checkout
    rw [if_neg (by simpa [List.isEmpty_iff] using hne), hval]
  · obtain ⟨ho, _, hprod, hcu, _, hpay⟩ := checkoutApply_state now uid db
      ((db.carts uid).map (mkOrderItem db)) (cartTotal db (db.carts uid))
    exact ⟨ho, hprod, hcu, hpay⟩

/-- C2 witness: concrete checkout of quantity 2 against stock 5, reserving 2
and leaving stock unchanged. -/
theorem C2_checkout_success_witness :
    ∃ db' : DB, checkout 0 0 exDB0 = (db', none) ∧
      (db'.products 0).reservedStock = 2 ∧ (db'.products 0).stock = 5 ∧
      db'.carts 0 = [] := by
  obtain ⟨db', h1, _, h3, h4, _⟩ := C2_checkout_success 0 0 exDB0
    (by decide) (by decide)
  refine ⟨db', h1, ?_, ?_, h4⟩
  · rw [(h3 0).1]
    decide
  · rw [(h3 0).2]
    decide

def exOrder : Order :=
  { userId := 1,
    items := [{ productId := 0, quantity := 3, priceAtPurchase := 10,
                productName := "Widget" }],
    totalAmount := 30, status := .PENDING_PAYMENT, expiresAt := 1000 }

def exPayDB : DB :=
  { products := fun _ =>
      { name := "Widget", price := 10, stock := 50, reservedStock := 3, isActive := true },
    orders := [(0, exOrder)], nextOrderId := 1, payments := [], carts := fun _ => [] }

/-- C3: for a PENDING_PAYMENT order owned by the caller that is not expired,
when the simulator succeeds, pay records a SUCCESS payment attempt,
transitions the order to PAID, and for every product decrements both `stock`
and `reservedStock` by the order's quantity for that product (so stock drops
by the ordered quantity and reservedStock returns to its pre-checkout value).
Both the transactional and the fallback execution produce this state. -/
theorem C3_pay_success (now : Int) (uid oid : Nat) (db : DB) (o : Order)
    (hf : findOrder oid db.orders = some o)
    (hu : o.userId = uid)
    (hst : o.status = .PENDING_PAYMENT)
    (hnotexp : ¬ o.expiresAt < now) :
    ∃ db' : DB, payTx now true uid oid db = (db', none) ∧
      payNoTx now true uid oid db = (db', none) ∧
      db'.payments
        = { orderId := oid, amount := o.totalAmount, status := .SUCCESS,
            failureReason := none : Payment } :: db.payments ∧
      findOrder oid db'.orders = some { o with status := .PAID } ∧
      (∀ q, q ≠ oid → findOrder q db'.orders = findOrder q db.orders) ∧
      (∀ pid, (db'.products pid).stock
          = (db.products pid).stock - itemsQty o.items pid ∧
        (db'.products pid).reservedStock
          = (db.products pid).reservedStock - itemsQty o.items pid) := by
  have hbody := payBody_some now true uid oid db o hf
  rw [if_neg (by simp [hu]), if_neg (fun hc => hnotexp hc.2.2),
    if_neg (by simp [hst]), if_neg (by simp)] at hbody
  refine ⟨commitItems (setOrderStatus (addPayment db
    { orderId := oid, amount := o.totalAmount, status := .SUCCESS,
      failureReason := none }) oid .PAID) o.items, ?_, ?_, ?_, ?_, ?_, ?_⟩
  · unfold payTx
    rw [hbody]
  · unfold payNoTx
    rw [hbody]
  · have hfr := (commitItems_frame o.items (setOrderStatus (addPayment db
      { orderId := oid, amount := o.totalAmount, status := .SUCCESS,
        failureReason := none }) oid .PAID)).2.2.1
    rw [hfr]
    rfl
  · have horders : (commitItems (setOrderStatus (addPayment db
        { orderId := oid, amount := o.totalAmount, status := .SUCCESS,
          failureReason := none }) oid .PAID) o.items).orders
        = setOrderStatusL db.orders oid .PAID :=
      (commitItems_frame o.items _).1
    rw [horders, findOrder_setStatusL_self, hf]
    rfl
  · intro q hq
    have horders : (commitItems (setOrderStatus (addPayment db
        { orderId := oid, amount := o.totalAmount, status := .SUCCESS,
          failureReason := none }) oid .PAID) o.items).orders
        = setOrderStatusL db.orders oid .PAID :=
      (commitItems_frame o.items _).1
    rw [horders, findOrder_setStatusL_ne db.orders q oid .PAID hq]
  · intro pid
    have h1 := commitItems_products o.items (setOrderStatus (addPayment db
      { orderId := oid, amount := o.totalAmount, status := .SUCCESS,
        failureReason := none }) oid .PAID) pid
    exact ⟨h1.2, h1.1⟩

/-- C3 witness: the spec scenario stock=50, reservedStock=3, quantity 3; a
successful pay leaves stock=47, reservedStock=0, order PAID. -/
theorem C3_pay_success_witness :
    ∃ db' : DB, payTx 500 true 1 0 exPayDB = (db', none) ∧
      (db'.products 0).stock = 47 ∧ (db'.products 0).reservedStock = 0 ∧
      findOrder 0 db'.orders = some { exOrder with status := .PAID } := by
  obtain ⟨db', h1, _, _, h4, _, h6⟩ := C3_pay_success 500 1 0 exPayDB exOrder
    rfl rfl rfl (by decide)
  refine ⟨db', h1, ?_, ?_, h4⟩
  · rw [(h6 0).1]
    decide
  · rw [(h6 0).2]
    decide

/-- C4 (code-bug evidence): at a pending, non-expired order with the
simulator declining, the transactional pay returns the database COMPLETELY
unchanged together with the declined error — the FAILED payment attempt that
the body wrote is rolled back by the aborted transaction and is NOT retained
(exPayDB.payments is empty before and after).  Status, stock and reservedStock
are unchanged and a retry remains possible (the order is still
PENDING_PAYMENT), as the claim says; only on the non-transactional fallback
path is the FAILED attempt (with the fixed reason string) actually retained. -/
theorem C4_declined_attempt_not_retained :
    payTx 500 false 1 0 exPayDB = (exPayDB, some .paymentDeclined) ∧
    (payTx 500 false 1 0 exPayDB).1.payments = [] ∧
    findOrder 0 (payTx 500 false 1 0 exPayDB).1.orders = some exOrder ∧
    exOrder.status = .PENDING_PAYMENT ∧
    (payNoTx 500 false 1 0 exPayDB).2 = some .paymentDeclined ∧
    (payNoTx 500 false 1 0 exPayDB).1
      = addPayment exPayDB
          { orderId := 0, amount := 30, status := .FAILED,
            failureReason := some "Payment gateway declined transaction" } :=
  ⟨rfl, rfl, rfl, rfl, rfl, rfl⟩

/-- C5 (code-bug evidence): at an expired PENDING_PAYMENT order, the
transactional pay throws OrderExpired, which aborts the transaction and rolls
back the CANCELLED write and the stock release: the database is returned
unchanged (order still PENDING_PAYMENT, reservedStock still 3).  Only the
non-transactional fallback path actually cancels the order and releases the
reservation (reservedStock 3 → 0, stock unchanged) as the claim describes. -/
theorem C5_lazy_expiry_rolled_back :
    payTx 2000 true 1 0 exPayDB = (exPayDB, some .orderExpired) ∧
    findOrder 0 (payTx 2000 true 1 0 exPayDB).1.orders = some exOrder ∧
    exOrder.status = .PENDING_PAYMENT ∧
    ((payTx 2000 true 1 0 exPayDB).1.products 0).reservedStock = 3 ∧
    (payNoTx 2000 true 1 0 exPayDB).2 = some .orderExpired ∧
    findOrder 0 (payNoTx 2000 true 1 0 exPayDB).1.orders
      = some { exOrder with status := .CANCELLED } ∧
    ((payNoTx 2000 true 1 0 exPayDB).1.products 0).reservedStock = 0 ∧
    ((payNoTx 2000 true 1 0 exPayDB).1.products 0).stock = 50 :=
  ⟨rfl, rfl, rfl, rfl, rfl, rfl, rfl, rfl⟩

theorem validateItems_error_shape (db : DB) (cart : List CartItem) (e : CheckoutError)
    (h : validateItems db cart = .error e) :
    (∃ pname, e = .productUnavailable pname) ∨
    ∃ pname avail, e = .insufficientStock pname avail := by
  induction cart with
  | nil => simp [validateItems] at h
  | cons it rest ih =>
    unfold validateItems at h
    by_cases hact : (db.products it.productId).isActive = false
    · rw [if_pos hact] at h
      injection h with h
      exact .inl ⟨_, h.symm⟩
    · rw [if_neg hact] at h
      by_cases hav : availableStock (db.products it.productId) < (it.quantity : Int)
      · rw [if_pos hav] at h
        injection h with h
        exact .inr ⟨_, _, h.symm⟩
      · rw [if_neg hav] at h
        cases hrest : validateItems db rest with
        | error err =>
          rw [hrest] at h
          injection h with h
          subst h
          exact ih hrest
        | ok p =>
          obtain ⟨os', t'⟩ := p
          rw [hrest] at h
          exact absurd h (by simp)

/-- C6: checkout is all-or-nothing on its failure cases: if the cart is
empty, or some line references an inactive product, or some line has
`availableStock < quantity`, the whole checkout fails and the database is
returned unchanged — no order is created, no reservedStock changes, the cart
is not cleared; when the cart is non-empty the error names the offending
product (unavailable or insufficient-stock, carrying its availableStock). -/
theorem C6_checkout_allOrNothing (now : Int) (uid : Nat) (db : DB)
    (h : db.carts uid = [] ∨
      (∃ it ∈ db.carts uid, (db.products it.productId).isActive = false) ∨
      (∃ it ∈ db.carts uid,
        availableStock (db.products it.productId) < (it.quantity : Int))) :
    (checkout now uid db).1 = db ∧
    (∃ e, (checkout now uid db).2 = some e) ∧
    (db.carts uid ≠ [] →
      (∃ pname, (checkout now uid db).2 = some (.productUnavailable pname)) ∨
      ∃ pname avail, (checkout now uid db).2 = some (.insufficientStock pname avail)) := by
  by_cases hemp : db.carts uid = []
  · unfold checkout
    rw [if_pos (by simp [hemp])]
    exact ⟨rfl, ⟨.cartEmpty, rfl⟩, fun hc => absurd hemp hc⟩
  · have hverr : ∃ e, validateItems db (db.carts uid) = .error e := by
      cases hval : validateItems db (db.carts uid) with
      | error e => exact ⟨e, rfl⟩
      | ok p =>
        obtain ⟨os, t⟩ := p
        have hmem := validateItems_ok_mem db (db.carts uid) os t hval
        rcases h with h | ⟨it, hit, hbad⟩ | ⟨it, hit, hbad⟩
        · exact absurd h hemp
        · have hg := (hmem it hit).1
          rw [hbad] at hg
          exact absurd hg (by simp)
        · have hg := (hmem it hit).2
          omega
    obtain ⟨e, hval⟩ := hverr
    have hshape := validateItems_error_shape db (db.carts uid) e hval
    unfold checkout
    rw [if_neg (by simpa [List.isEmpty_iff] using hemp), hval]
    refine ⟨rfl, ⟨e, rfl⟩, fun _ => ?_⟩
    rcases hshape with ⟨pname, he⟩ | ⟨pname, avail, he⟩
    · exact .inl ⟨pname, by rw [he]⟩
    · exact .inr ⟨pname, avail, by rw [he]⟩

def exLowDB : DB :=
  { products := fun _ =>
      { name := "Widget", price := 10, stock := 1, reservedStock := 0, isActive := true },
    orders := [], nextOrderId := 0, payments := [],
    carts := fun _ => [{ productId := 0, quantity := 2 }] }

/-- C6 witness: a cart asking quantity 2 of a product with availableStock 1
fails checkout and leaves the database untouched. -/
theorem C6_checkout_allOrNothing_witness :
    (exLowDB.carts 0 = [] ∨
      (∃ it ∈ exLowDB.carts 0, (exLowDB.products it.productId).isActive = false) ∨
      (∃ it ∈ exLowDB.carts 0,
        availableStock (exLowDB.products it.productId) < (it.quantity : Int))) ∧
    (checkout 0 0 exLowDB).1 = exLowDB ∧
    ∃ e, (checkout 0 0 exLowDB).2 = some e := by
  have hh : exLowDB.carts 0 = [] ∨
      (∃ it ∈ exLowDB.carts 0, (exLowDB.products it.productId).isActive = false) ∨
      (∃ it ∈ exLowDB.carts 0,
        availableStock (exLowDB.products it.productId) < (it.quantity : Int)) := by
    refine .inr (.inr ?_)
    refine ⟨{ productId := 0, quantity := 2 }, by decide, by decide⟩
  obtain ⟨h1, h2, _⟩ := C6_checkout_allOrNothing 0 0 exLowDB hh
  exact ⟨hh, h1, h2⟩

/-- The five transitions the spec lists as legal. -/
def allowedTransitions : List (OrderStatus × OrderStatus) :=
  [(.PENDING_PAYMENT, .PAID), (.PENDING_PAYMENT, .CANCELLED),
   (.PAID, .SHIPPED), (.PAID, .CANCELLED), (.SHIPPED, .DELIVERED)]

/-- C7: the admin status update permits exactly the five listed transitions;
for every other (current, requested) pair — including transitions out of
DELIVERED or CANCELLED and self-transitions — it fails with an
invalid-transition error carrying both statuses and returns the database
unchanged; on an allowed pair it writes exactly the new status. -/
theorem C7_admin_status_transitions (db : DB) (oid : Nat) (o : Order)
    (t : OrderStatus) (hf : findOrder oid db.orders = some o) :
    (validTransition o.status t = true ↔ (o.status, t) ∈ allowedTransitions) ∧
    ((o.status, t) ∈ allowedTransitions →
      adminUpdateStatus oid t db = (setOrderStatus db oid t, none) ∧
      findOrder oid (setOrderStatus db oid t).orders = some { o with status := t }) ∧
    ((o.status, t) ∉ allowedTransitions →
      adminUpdateStatus oid t db = (db, some (.invalidTransition o.status t))) := by
  have hiff : validTransition o.status t = true
      ↔ (o.status, t) ∈ allowedTransitions := by
    generalize o.status = s
    cases s <;> cases t <;> decide
  have hadm : adminUpdateStatus oid t db
      = if validTransition o.status t then (setOrderStatus db oid t, none)
        else (db, some (.invalidTransition o.status t)) := by
    unfold adminUpdateStatus
    rw [hf]
  refine ⟨hiff, fun hmem => ?_, fun hmem => ?_⟩
  · have hv : validTransition o.status t = true := hiff.mpr hmem
    rw [hadm, if_pos hv]
    refine ⟨rfl, ?_⟩
    show findOrder oid (setOrderStatusL db.orders oid t) = some { o with status := t }
    rw [findOrder_setStatusL_self, hf]
    rfl
  · have hv : ¬ validTransition o.status t = true :=
      fun hc => hmem (hiff.mp hc)
    rw [hadm, if_neg hv]

/-- C7 witness: PENDING_PAYMENT → SHIPPED is rejected with an error carrying
both statuses, and the database is unchanged. -/
theorem C7_admin_status_transitions_witness :
    findOrder 0 exPayDB.orders = some exOrder ∧
    (validTransition exOrder.status .SHIPPED = true
      ↔ (exOrder.status, OrderStatus.SHIPPED) ∈ allowedTransitions) ∧
    adminUpdateStatus 0 .SHIPPED exPayDB
      = (exPayDB, some (.invalidTransition .PENDING_PAYMENT .SHIPPED)) := by
  have h := C7_admin_status_transitions exPayDB 0 exOrder .SHIPPED rfl
  exact ⟨rfl, h.1, h.2.2 (by decide)⟩

def exReleaseItem : OrderItem :=
  { productId := 0, quantity := 1, priceAtPurchase := 10, productName := "Widget" }

/-- C8 (code-bug evidence): the release write is a raw decrement with no
floor at 0 and no error signal: releasing quantity 1 from a product whose
reservedStock is 0 silently drives reservedStock to -1 (stock untouched),
violating the schema's own `min: 0` declaration, instead of flooring at 0 and
surfacing an invariant violation as the claim states. -/
theorem C8_release_not_floored :
    ((releaseItems exDB0 [exReleaseItem]).products 0).reservedStock = -1 ∧
    ((releaseItems exDB0 [exReleaseItem]).products 0).stock = 5 :=
  ⟨rfl, rfl⟩

def exRaceOrder : Order :=
  { userId := 1,
    items := [{ productId := 0, quantity := 3, priceAtPurchase := 10,
                productName := "Widget" }],
    totalAmount := 30, status := .PENDING_PAYMENT, expiresAt := 100 }

def exRaceDB : DB :=
  { products := fun _ =>
      { name := "Widget", price := 10, stock := 10, reservedStock := 3, isActive := true },
    orders := [(0, exRaceOrder)], nextOrderId := 1, payments := [], carts := fun _ => [] }

/-- C9 (code-bug evidence): the sweeper writes CANCELLED and releases stock
from its scan-time snapshot, with no condition that the status is still
PENDING_PAYMENT.  Concretely: the scan at time 200 picks up the expired
order; a concurrent fallback-mode pay then lazily cancels it and releases its
3 reserved units (reservedStock 3 → 0); processing the stale scan entry
afterwards releases the same 3 units again, driving reservedStock to -3 — the
release happens twice, not at most once. -/
theorem C9_sweep_pay_double_release :
    sweepScan 200 exRaceDB = [(0, exRaceOrder)] ∧
    (payNoTx 200 true 1 0 exRaceDB).2 = some .orderExpired ∧
    findOrder 0 (payNoTx 200 true 1 0 exRaceDB).1.orders
      = some { exRaceOrder with status := .CANCELLED } ∧
    ((payNoTx 200 true 1 0 exRaceDB).1.products 0).reservedStock = 0 ∧
    ((sweepProcess 0 exRaceOrder (payNoTx 200 true 1 0 exRaceDB).1).products 0).reservedStock
      = -3 ∧
    findOrder 0 (sweepProcess 0 exRaceOrder (payNoTx 200 true 1 0 exRaceDB).1).orders
      = some { exRaceOrder with status := .CANCELLED } :=
  ⟨rfl, rfl, rfl, rfl, rfl, rfl⟩

/-- C10: the admin status update never touches products (stock and
reservedStock of every product are unchanged, for any order and any requested
status — in particular PENDING_PAYMENT → CANCELLED does not release the
reservation and PENDING_PAYMENT → PAID does not commit stock), never touches
payments or carts, and either leaves the database unchanged or rewrites only
the order's status field. -/
theorem C10_admin_update_frame (db : DB) (oid : Nat) (t : OrderStatus) :
    (∀ pid, (adminUpdateStatus oid t db).1.products pid = db.products pid) ∧
    (adminUpdateStatus oid t db).1.payments = db.payments ∧
    (∀ u, (adminUpdateStatus oid t db).1.carts u = db.carts u) ∧
    ((adminUpdateStatus oid t db).1 = db ∨
      (adminUpdateStatus oid t db).1 = setOrderStatus db oid t) := by
  unfold adminUpdateStatus
  split
  · exact ⟨fun _ => rfl, rfl, fun _ => rfl, .inl rfl⟩
  next o hf =>
    by_cases hv : validTransition o.status t = true
    · rw [if_pos hv]
      exact ⟨fun _ => rfl, rfl, fun _ => rfl, .inr rfl⟩
    · rw [if_neg hv]
      exact ⟨fun _ => rfl, rfl, fun _ => rfl, .inl rfl⟩

end Shop
